import Mathlib

/-!
Shallow embedding of the market-data client of `src/app/page.tsx`
(stock-portfolio dashboard).  The embedded code is:

* `AlphaVantageAPI.getDailyData`  — the provider call, classifying the
  provider-reported error conditions;
* `AlphaVantageAPI.parseStockData` — normalisation of the daily series
  into a `Quote`;
* `fetchStockPrice`  — the UI event handler (try / catch / finally over the
  component state);
* `updateAllPrices`  — the sequential watch-list loop with its fixed
  1000 ms inter-request delay.

Modelling conventions
* JS numbers produced by `parseFloat` / `parseInt` are modelled as
  `Option ℚ` / `Option ℤ`, with `none` standing for `NaN`.  The model of the
  two parsing functions covers plain decimal literals with an optional sign
  and an optional fractional part (the shape of every provider OHLCV
  string); leading whitespace and exponent notation are outside the model.
* The source only ever observes the provider fields `'Error Message'` and
  `'Note'` through JS truthiness tests (`if (data['Error Message'])`), so
  they are modelled as the Booleans `hasErrorMessage` / `hasNote`
  (`true` = field present with a truthy value).
* The daily series is a JSON object, modelled as an association list of
  (date-key, entry) pairs in enumeration order; `Object.keys` is its list of
  first components, and JS `Array.prototype.sort()` on such keys is
  lexicographic string sort.
* The component state `{stockPrices, isLoading, apiStatus}` is threaded
  explicitly; the JS spread `{...prev, [symbol]: v}` keeps an existing key in
  place with its value replaced and appends a fresh key at the end, which is
  exactly `Cache.set` below.
* A network rejection or a JSON-parse failure of the response body is the
  input `FetchOutcome.failure msg` (the exception's message); `getDailyData`
  re-throws it unchanged, which the spec calls the transport error kind.
-/

/-- One value of the `"Time Series (Daily)"` object: string-encoded OHLCV
fields, exactly the five keys read by `parseStockData`. -/
structure SeriesEntry where
  «open» : String
  high : String
  low : String
  close : String
  volume : String
deriving DecidableEq, Repr

/-- The parsed JSON body of a provider response, restricted to the fields the
source reads: truthiness of `'Error Message'` and `'Note'`, and the optional
`"Time Series (Daily)"` object (`none` = key absent / falsy). -/
structure ApiResponse where
  hasErrorMessage : Bool
  hasNote : Bool
  timeSeries : Option (List (String × SeriesEntry))
deriving DecidableEq, Repr

/-- Outcome of `fetch` + `response.json()`: either an exception (network
rejection or JSON parse failure, carrying the exception message) or a parsed
body. -/
inductive FetchOutcome where
  | failure (msg : String)
  | success (data : ApiResponse)
deriving DecidableEq, Repr

/-- The error kinds thrown by `getDailyData`: the two fixed `new Error(...)`
messages for provider-flagged conditions, and the re-thrown network/parse
exception. -/
inductive ApiError where
  | notFound
  | rateLimited
  | transport (msg : String)
deriving DecidableEq, Repr

/-- `error.message` of each thrown error, as `fetchStockPrice`'s catch clause
sees it. -/
def ApiError.message : ApiError → String
  | .notFound => "銘柄が見つかりません"
  | .rateLimited => "API制限に達しました。しばらく待ってから再試行してください。"
  | .transport msg => msg

/-- `AlphaVantageAPI.getDailyData` (src/app/page.tsx lines 14–34): a
network/parse exception propagates; otherwise `'Error Message'` is tested
first, then `'Note'`, and a body passing both tests is returned as-is. -/
def getDailyData : FetchOutcome → Except ApiError ApiResponse
  | .failure msg => .error (.transport msg)
  | .success data =>
    if data.hasErrorMessage then .error .notFound
    else if data.hasNote then .error .rateLimited
    else .ok data

/-- Longest digit prefix of a character list, with the remainder. -/
def takeDigits : List Char → List Char × List Char
  | [] => ([], [])
  | c :: cs =>
    if c.isDigit then
      let r := takeDigits cs
      (c :: r.1, r.2)
    else ([], c :: cs)

/-- Value of a digit string read in base 10. -/
def digitsToNat (ds : List Char) : ℕ :=
  ds.foldl (fun a c => 10 * a + (c.toNat - 48)) 0

/-- Unsigned decimal literal: digits, optionally followed by `.` and more
digits; `none` when no digit is found (JS `NaN`).  The value
`ip + fp / 10 ^ |fp|` is written as the single fraction
`(ip * 10 ^ |fp| + fp) / 10 ^ |fp|` via `mkRat`. -/
def parseUnsignedDecimal (cs : List Char) : Option ℚ :=
  let ip := takeDigits cs
  match ip.2 with
  | '.' :: rest =>
    let fp := takeDigits rest
    if ip.1.isEmpty && fp.1.isEmpty then none
    else some (mkRat (digitsToNat ip.1 * 10 ^ fp.1.length + digitsToNat fp.1) (10 ^ fp.1.length))
  | _ => if ip.1.isEmpty then none else some (digitsToNat ip.1 : ℚ)

/-- Model of JS `parseFloat` on plain decimal literals; `none` is `NaN`. -/
def jsParseFloat (s : String) : Option ℚ :=
  match s.toList with
  | '-' :: cs => (parseUnsignedDecimal cs).map (fun q => -q)
  | '+' :: cs => parseUnsignedDecimal cs
  | cs => parseUnsignedDecimal cs

/-- Model of JS `parseInt` (implicit base 10) on plain integer literals:
longest digit prefix, optional sign; `none` is `NaN`. -/
def jsParseInt (s : String) : Option ℤ :=
  match s.toList with
  | '-' :: cs =>
    let r := takeDigits cs
    if r.1.isEmpty then none else some (-(digitsToNat r.1 : ℤ))
  | '+' :: cs =>
    let r := takeDigits cs
    if r.1.isEmpty then none else some (digitsToNat r.1 : ℤ)
  | cs =>
    let r := takeDigits cs
    if r.1.isEmpty then none else some (digitsToNat r.1 : ℤ)

/-- The flat record returned by `parseStockData`: the selected date key and
the five numeric OHLCV fields. -/
structure Quote where
  date : String
  «open» : Option ℚ
  high : Option ℚ
  low : Option ℚ
  close : Option ℚ
  volume : Option ℤ
deriving DecidableEq, Repr

/-- The runtime exception raised when `parseStockData` dereferences the entry
of an absent latest date (`latestData['1. open']` with `latestData`
undefined); the exact engine message is irrelevant to the program. -/
inductive JsError where
  | typeError
deriving DecidableEq, Repr

/-- `error.message` surfaced for a `JsError` (engine text, abstracted). -/
def JsError.message : JsError → String
  | .typeError => "Cannot read properties of undefined"

instance {ε α : Type} [DecidableEq ε] [DecidableEq α] : DecidableEq (Except ε α) :=
  fun x y =>
    match x, y with
    | .error a, .error b =>
      if h : a = b then isTrue (by rw [h])
      else isFalse (by intro hh; cases hh; exact h rfl)
    | .error _, .ok _ => isFalse (fun hh => Except.noConfusion hh)
    | .ok _, .error _ => isFalse (fun hh => Except.noConfusion hh)
    | .ok a, .ok b =>
      if h : a = b then isTrue (by rw [h])
      else isFalse (by intro hh; cases hh; exact h rfl)

/-- Strict lexicographic comparison of character lists by code point, the
order JS `Array.prototype.sort()` applies to the (string) date keys. -/
def strLtList : List Char → List Char → Bool
  | [], [] => false
  | [], _ :: _ => true
  | _ :: _, [] => false
  | a :: as, b :: bs =>
    if a.toNat < b.toNat then true
    else if b.toNat < a.toNat then false
    else strLtList as bs

/-- Non-strict lexicographic comparison of strings by code point. -/
def strLe (a b : String) : Bool := !(strLtList b.toList a.toList)

/-- The comparison as a relation, for sorting. -/
def keyLe (a b : String) : Prop := strLe a b = true

instance : DecidableRel keyLe := fun a b => instDecidableEqBool (strLe a b) true

/-- `Object.keys(timeSeries).sort().reverse()`: lexicographic ascending sort
of the key list, then reversal. -/
def sortedKeysDesc (keys : List String) : List String :=
  (List.insertionSort keyLe keys).reverse

/-- JS property lookup `timeSeries[k]` on the series object. -/
def lookupEntry (ts : List (String × SeriesEntry)) (k : String) : Option SeriesEntry :=
  (ts.find? (fun p => p.1 == k)).map Prod.snd

/-- `AlphaVantageAPI.parseStockData` (src/app/page.tsx lines 37–53).
`.ok none` is the `return null` path (series key absent); `.error` is the
thrown `TypeError` when the series object is present but has no key (then
`dates[0]` is `undefined` and the field access on the undefined entry
throws); `.ok (some q)` is the normal return. -/
def parseStockData (apiData : ApiResponse) : Except JsError (Option Quote) :=
  match apiData.timeSeries with
  | none => .ok none
  | some ts =>
    let dates := sortedKeysDesc (ts.map Prod.fst)
    match dates.head? with
    | none => .error .typeError
    | some latestDate =>
      match lookupEntry ts latestDate with
      | none => .error .typeError
      | some latestData =>
        .ok (some {
          date := latestDate
          «open» := jsParseFloat latestData.«open»
          high := jsParseFloat latestData.high
          low := jsParseFloat latestData.low
          close := jsParseFloat latestData.close
          volume := jsParseInt latestData.volume })

/-- The Quote Cache (`stockPrices`): a JS object keyed by symbol, modelled as
an association list in enumeration order. -/
abbrev Cache := List (String × Quote)

/-- Property read `stockPrices[sym]`. -/
def Cache.lookup (m : Cache) (k : String) : Option Quote :=
  (m.find? (fun p => p.1 == k)).map Prod.snd

/-- The JS spread `{...prev, [symbol]: v}`: an existing key keeps its
position and gets the new value; a fresh key is appended at the end. -/
def Cache.set (m : Cache) (k : String) (v : Quote) : Cache :=
  if m.any (fun p => p.1 == k) then
    m.map (fun p => if p.1 == k then (k, v) else p)
  else m ++ [(k, v)]

/-- The component state touched by `fetchStockPrice`. -/
structure AppState where
  stockPrices : Cache
  isLoading : Bool
  apiStatus : String
deriving DecidableEq, Repr

/-- `fetchStockPrice` (src/app/page.tsx lines 74–94), as a state transformer:
sets the loading flag and the progress status, runs `getDailyData` and
`parseStockData` inside the `try`, merges a parsed quote into the cache and
sets the success status, converts any thrown error into the
`"エラー: " ++ message` status in the `catch`, and clears the loading flag in
the `finally`.  The `parsedData == null` case leaves cache and status
untouched (the `if (parsedData)` guard has no else branch). -/
def fetchStockPrice (symbol : String) (net : FetchOutcome) (st : AppState) : AppState :=
  let loading : AppState :=
    { st with isLoading := true, apiStatus := symbol ++ " のデータを取得中..." }
  let afterTry : AppState :=
    match getDailyData net with
    | .error e => { loading with apiStatus := "エラー: " ++ e.message }
    | .ok data =>
      match parseStockData data with
      | .error j => { loading with apiStatus := "エラー: " ++ j.message }
      | .ok none => loading
      | .ok (some q) =>
        { loading with
            stockPrices := Cache.set loading.stockPrices symbol q
            apiStatus := symbol ++ " のデータを取得しました" }
  { afterTry with isLoading := false }

/-- The fixed watch list of `updateAllPrices`. -/
def watchSymbols : List String := ["AAPL", "MSFT", "7203.T", "9432.T"]

/-- The environment of a batch run: for each symbol, the outcome of its
network request and the elapsed time (ms) until that outcome is received. -/
structure FetchEnv where
  outcome : String → FetchOutcome
  duration : String → ℕ

/-- One pass of the `for (const symbol of symbols)` loop of
`updateAllPrices`: at time `t` the request for the head symbol is issued
(recorded in the trace), `fetchStockPrice` is awaited, then the
`setTimeout(resolve, 1000)` delay is awaited, after which the next iteration
starts at `t + duration + 1000`. -/
def runSymbols (env : FetchEnv) : List String → ℕ → AppState → AppState × List (String × ℕ)
  | [], _, st => (st, [])
  | sym :: rest, t, st =>
    let st2 := fetchStockPrice sym (env.outcome sym) st
    let r := runSymbols env rest (t + env.duration sym + 1000) st2
    (r.1, (sym, t) :: r.2)

/-- `updateAllPrices` (src/app/page.tsx lines 97–104): the sequential loop
over the fixed watch list, started at time 0.  Returns the final state and
the issuance trace (symbol, issuance time). -/
def updateAllPrices (env : FetchEnv) (st : AppState) : AppState × List (String × ℕ) :=
  runSymbols env watchSymbols 0 st

/-! ### Sample data for concrete instances -/

/-- The OHLCV entry of the spec's parsing example. -/
def sampleEntry : SeriesEntry :=
  { «open» := "150.00", high := "152.00", low := "149.50", close := "151.25",
    volume := "1000000" }

/-- A normal provider response with a single-day series. -/
def sampleResp : ApiResponse :=
  { hasErrorMessage := false, hasNote := false,
    timeSeries := some [("2024-01-01", sampleEntry)] }

/-- The spec's two-date series example. -/
def janResp : ApiResponse :=
  { hasErrorMessage := false, hasNote := false,
    timeSeries := some [("2024-01-02", sampleEntry), ("2024-01-03", sampleEntry)] }

/-- A fresh component state. -/
def emptyState : AppState :=
  { stockPrices := [], isLoading := false, apiStatus := "" }

/-- An environment in which every request fails at the network layer. -/
def downEnv : FetchEnv :=
  { outcome := fun _ => FetchOutcome.failure "Failed to fetch", duration := fun _ => 0 }

/-! ### Order facts about the lexicographic comparison -/

theorem strLtList_irrefl : ∀ a : List Char, strLtList a a = false := by
  intro a
  induction a with
  | nil => rfl
  | cons c cs ih => simp [strLtList, ih]

theorem strLtList_asymm : ∀ a b : List Char,
    strLtList a b = true → strLtList b a = false := by
  intro a
  induction a with
  | nil =>
    intro b h
    cases b with
    | nil => simp [strLtList] at h
    | cons x xs => simp [strLtList]
  | cons y ys ih =>
    intro b h
    cases b with
    | nil => simp [strLtList] at h
    | cons x xs =>
      simp only [strLtList] at h ⊢
      by_cases h1 : y.toNat < x.toNat
      · have h2 : ¬ x.toNat < y.toNat := by omega
        simp [h1, h2]
      · by_cases h2 : x.toNat < y.toNat
        · simp [h1, h2] at h
        · simp [h1, h2] at h ⊢
          exact ih xs h

theorem strLtList_trans_neg : ∀ a b c : List Char,
    strLtList a b = false → strLtList b c = false → strLtList a c = false := by
  intro a
  induction a with
  | nil =>
    intro b c hab hbc
    cases b with
    | nil =>
      cases c with
      | nil => rfl
      | cons z zs => simp [strLtList] at hbc
    | cons x xs => simp [strLtList] at hab
  | cons y ys ih =>
    intro b c hab hbc
    cases b with
    | nil =>
      cases c with
      | nil => rfl
      | cons z zs => simp [strLtList] at hbc
    | cons x xs =>
      cases c with
      | nil => rfl
      | cons z zs =>
        simp only [strLtList] at hab hbc ⊢
        by_cases h1 : y.toNat < x.toNat
        · simp [h1] at hab
        · by_cases h2 : x.toNat < z.toNat
          · simp [h2] at hbc
          · have h3 : ¬ y.toNat < z.toNat := by omega
            by_cases h4 : z.toNat < y.toNat
            · simp [h3, h4]
            · have h5 : ¬ x.toNat < y.toNat := by omega
              have h6 : ¬ z.toNat < x.toNat := by omega
              simp [h1, h5] at hab
              simp [h2, h6] at hbc
              simp [h3, h4]
              exact ih xs zs hab hbc

theorem keyLe_refl (a : String) : keyLe a a := by
  unfold keyLe strLe
  simp [strLtList_irrefl]

instance : IsTotal String keyLe :=
  ⟨fun a b => by
    unfold keyLe strLe
    by_cases h : strLtList b.toList a.toList = true
    · right
      simp [String.toList] at h ⊢
      simp [strLtList_asymm _ _ h]
    · left
      simp [Bool.not_eq_true] at h
      simp [h]⟩

instance : IsTrans String keyLe :=
  ⟨fun a b c hab hbc => by
    unfold keyLe strLe at hab hbc ⊢
    simp [Bool.not_eq_true'] at hab hbc ⊢
    exact strLtList_trans_neg c.toList b.toList a.toList hbc hab⟩

/-- The head of the descending-sorted key list is a key and bounds every key
from above in the lexicographic order. -/
theorem head_sortedKeysDesc_max (keys : List String) (m : String)
    (h : (sortedKeysDesc keys).head? = some m) :
    m ∈ keys ∧ ∀ x ∈ keys, keyLe x m := by
  unfold sortedKeysDesc at h
  obtain ⟨rest, hrev⟩ : ∃ rest, (List.insertionSort keyLe keys).reverse = m :: rest := by
    cases hr : (List.insertionSort keyLe keys).reverse with
    | nil => rw [hr] at h; simp at h
    | cons a t =>
      rw [hr] at h
      simp only [List.head?_cons, Option.some.injEq] at h
      subst h
      exact ⟨t, rfl⟩
  have hperm : List.Perm (List.insertionSort keyLe keys) keys :=
    List.perm_insertionSort keyLe keys
  have hsorted : List.Sorted keyLe (List.insertionSort keyLe keys) :=
    List.sorted_insertionSort keyLe keys
  have hpairrev : List.Pairwise (fun a b => keyLe b a) (List.insertionSort keyLe keys).reverse :=
    List.pairwise_reverse.mpr hsorted
  rw [hrev] at hpairrev
  have hrestle : ∀ x ∈ rest, keyLe x m := fun x hx =>
    (List.pairwise_cons.mp hpairrev).1 x hx
  have hmemrev : ∀ x, x ∈ keys → x ∈ m :: rest := by
    intro x hx
    rw [← hrev]
    simpa using hperm.symm.subset hx
  constructor
  · have : m ∈ m :: rest := List.mem_cons_self m rest
    rw [← hrev] at this
    exact hperm.subset (by simpa using this)
  · intro x hx
    rcases List.mem_cons.mp (hmemrev x hx) with h1 | h1
    · rw [h1]; exact keyLe_refl m
    · exact hrestle x h1

/-- A key of the series object has an entry: `timeSeries[k]` is defined for
`k ∈ Object.keys(timeSeries)`. -/
theorem lookupEntry_of_mem (ts : List (String × SeriesEntry)) (k : String)
    (h : k ∈ ts.map Prod.fst) : ∃ e, lookupEntry ts k = some e := by
  induction ts with
  | nil => simp at h
  | cons p rest ih =>
    by_cases hpk : p.1 = k
    · exact ⟨p.2, by simp [lookupEntry, List.find?_cons_of_pos, hpk]⟩
    · have h' : k ∈ rest.map Prod.fst := by
        rw [List.map_cons] at h
        rcases List.mem_cons.mp h with h1 | h1
        · exact absurd h1.symm hpk
        · exact h1
      obtain ⟨e, he⟩ := ih h'
      refine ⟨e, ?_⟩
      simp only [lookupEntry] at he ⊢
      rw [List.find?_cons_of_neg]
      · exact he
      · simp [hpk]

/-! ### Quote Cache lemmas -/

theorem cache_lookup_cons (p : String × Quote) (rest : Cache) (k : String) :
    Cache.lookup (p :: rest) k = if p.1 = k then some p.2 else Cache.lookup rest k := by
  by_cases h : p.1 = k
  · rw [if_pos h]
    unfold Cache.lookup
    rw [List.find?_cons_of_pos _ (by simp [h])]
    rfl
  · rw [if_neg h]
    unfold Cache.lookup
    rw [List.find?_cons_of_neg _ (by simp [h])]

theorem lookup_map_replace_self (m : Cache) (k : String) (v : Quote)
    (h : m.any (fun p => p.1 == k) = true) :
    Cache.lookup (m.map (fun p => if p.1 == k then (k, v) else p)) k = some v := by
  induction m with
  | nil => simp at h
  | cons p rest ih =>
    rw [List.map_cons]
    by_cases hpk : p.1 = k
    · have hf : (if (p.1 == k) = true then (k, v) else p) = (k, v) := by simp [hpk]
      rw [hf, cache_lookup_cons]
      simp
    · have hf : (if (p.1 == k) = true then (k, v) else p) = p := by simp [hpk]
      rw [hf, cache_lookup_cons, if_neg hpk]
      apply ih
      simpa [hpk] using h

theorem lookup_map_replace_other (m : Cache) (k : String) (v : Quote) (k2 : String)
    (hne : k2 ≠ k) :
    Cache.lookup (m.map (fun p => if p.1 == k then (k, v) else p)) k2 = Cache.lookup m k2 := by
  induction m with
  | nil => rfl
  | cons p rest ih =>
    rw [List.map_cons]
    by_cases hpk : p.1 = k
    · have hf : (if (p.1 == k) = true then (k, v) else p) = (k, v) := by simp [hpk]
      have h1 : ¬ ((k, v).1 = k2) := fun hh => hne hh.symm
      have h2 : ¬ (p.1 = k2) := by rw [hpk]; exact fun hh => hne hh.symm
      rw [hf, cache_lookup_cons, cache_lookup_cons, if_neg h1, if_neg h2]
      exact ih
    · have hf : (if (p.1 == k) = true then (k, v) else p) = p := by simp [hpk]
      rw [hf, cache_lookup_cons, cache_lookup_cons]
      by_cases hpk2 : p.1 = k2
      · rw [if_pos hpk2, if_pos hpk2]
      · rw [if_neg hpk2, if_neg hpk2]
        exact ih

theorem lookup_append_self (m : Cache) (k : String) (v : Quote)
    (h : m.any (fun p => p.1 == k) = false) :
    Cache.lookup (m ++ [(k, v)]) k = some v := by
  induction m with
  | nil =>
    rw [List.nil_append, cache_lookup_cons]
    simp
  | cons p rest ih =>
    have hpk : ¬ p.1 = k := by
      intro hh
      simp [hh] at h
    rw [List.cons_append, cache_lookup_cons, if_neg hpk]
    apply ih
    simpa [hpk] using h

theorem lookup_append_other (m : Cache) (k : String) (v : Quote) (k2 : String)
    (hne : k2 ≠ k) :
    Cache.lookup (m ++ [(k, v)]) k2 = Cache.lookup m k2 := by
  induction m with
  | nil =>
    rw [List.nil_append, cache_lookup_cons, if_neg (fun hh => hne hh.symm : ¬ (k, v).1 = k2)]
  | cons p rest ih =>
    rw [List.cons_append, cache_lookup_cons, cache_lookup_cons]
    by_cases hpk2 : p.1 = k2
    · rw [if_pos hpk2, if_pos hpk2]
    · rw [if_neg hpk2, if_neg hpk2]
      exact ih

/-- `Cache.set` (the JS spread) is an insert-or-replace of the single entry
at the given key. -/
theorem cache_set_lookup_self (m : Cache) (k : String) (v : Quote) :
    Cache.lookup (Cache.set m k v) k = some v := by
  by_cases h : m.any (fun p => p.1 == k) = true
  · simpa [Cache.set, h] using lookup_map_replace_self m k v h
  · have h' : m.any (fun p => p.1 == k) = false := Bool.eq_false_iff.mpr h
    simpa [Cache.set, h'] using lookup_append_self m k v h'

/-- `Cache.set` leaves every other key's binding unchanged. -/
theorem cache_set_lookup_other (m : Cache) (k : String) (v : Quote) (k2 : String)
    (hne : k2 ≠ k) :
    Cache.lookup (Cache.set m k v) k2 = Cache.lookup m k2 := by
  by_cases h : m.any (fun p => p.1 == k) = true
  · simpa [Cache.set, h] using lookup_map_replace_other m k v k2 hne
  · have h' : m.any (fun p => p.1 == k) = false := Bool.eq_false_iff.mpr h
    simpa [Cache.set, h'] using lookup_append_other m k v k2 hne

/-! ### Claims -/

/-- Claim C1: for every provider response whose `'Error Message'` field is
present (truthy), `getDailyData` fails with the NotFound error kind, no Quote
is stored for the symbol, and the error is surfaced as the status string. -/
theorem errorMessage_yields_notFound (resp : ApiResponse)
    (h : resp.hasErrorMessage = true) (sym : String) (st : AppState) :
    getDailyData (FetchOutcome.success resp) = Except.error ApiError.notFound ∧
    (fetchStockPrice sym (FetchOutcome.success resp) st).stockPrices = st.stockPrices ∧
    (fetchStockPrice sym (FetchOutcome.success resp) st).apiStatus =
      "エラー: " ++ ApiError.message ApiError.notFound := by
  refine ⟨by simp [getDailyData, h], ?_, ?_⟩ <;>
    simp [fetchStockPrice, getDailyData, h]

/-- Witness for C1 at a concrete response, symbol and state. -/
theorem errorMessage_yields_notFound_witness :
    getDailyData (FetchOutcome.success ⟨true, false, none⟩) =
      Except.error ApiError.notFound ∧
    (fetchStockPrice "AAPL" (FetchOutcome.success ⟨true, false, none⟩) emptyState).stockPrices =
      emptyState.stockPrices ∧
    (fetchStockPrice "AAPL" (FetchOutcome.success ⟨true, false, none⟩) emptyState).apiStatus =
      "エラー: " ++ ApiError.message ApiError.notFound :=
  errorMessage_yields_notFound ⟨true, false, none⟩ rfl "AAPL" emptyState

/-- Claim C2: for every provider response carrying a rate-limit notice
(`'Note'` truthy) — per the provider shape such a response has no
`'Error Message'` field, which `getDailyData` checks first — the fetch fails
with the RateLimited error kind, which is distinct from NotFound, and the
cache is untouched. -/
theorem note_yields_rateLimited (resp : ApiResponse) (hN : resp.hasNote = true)
    (hE : resp.hasErrorMessage = false) (sym : String) (st : AppState) :
    getDailyData (FetchOutcome.success resp) = Except.error ApiError.rateLimited ∧
    ApiError.rateLimited ≠ ApiError.notFound ∧
    (fetchStockPrice sym (FetchOutcome.success resp) st).stockPrices = st.stockPrices := by
  refine ⟨by simp [getDailyData, hN, hE], by decide, ?_⟩
  simp [fetchStockPrice, getDailyData, hN, hE]

/-- Witness for C2 at a concrete response, symbol and state. -/
theorem note_yields_rateLimited_witness :
    getDailyData (FetchOutcome.success ⟨false, true, none⟩) =
      Except.error ApiError.rateLimited ∧
    ApiError.rateLimited ≠ ApiError.notFound ∧
    (fetchStockPrice "AAPL" (FetchOutcome.success ⟨false, true, none⟩) emptyState).stockPrices =
      emptyState.stockPrices :=
  note_yields_rateLimited ⟨false, true, none⟩ rfl rfl "AAPL" emptyState

/-- Claim C3: for every non-empty daily series, the returned Quote's date is
the lexicographically greatest date key; in particular the series with keys
"2024-01-02" and "2024-01-03" yields date "2024-01-03". -/
theorem parse_selects_latest_date :
    (∀ (resp : ApiResponse) (ts : List (String × SeriesEntry)),
        resp.timeSeries = some ts → ts ≠ [] →
        ∃ q : Quote, parseStockData resp = Except.ok (some q) ∧
          q.date ∈ ts.map Prod.fst ∧ ∀ k ∈ ts.map Prod.fst, keyLe k q.date) ∧
    (∃ q : Quote, parseStockData janResp = Except.ok (some q) ∧ q.date = "2024-01-03") := by
  constructor
  · intro resp ts h hne
    have hkeys : ts.map Prod.fst ≠ [] := by simpa using hne
    obtain ⟨m, hm⟩ : ∃ m, (sortedKeysDesc (ts.map Prod.fst)).head? = some m := by
      have hlen : (sortedKeysDesc (ts.map Prod.fst)).length = (ts.map Prod.fst).length := by
        unfold sortedKeysDesc
        rw [List.length_reverse]
        exact (List.perm_insertionSort keyLe _).length_eq
      cases hsd : sortedKeysDesc (ts.map Prod.fst) with
      | nil =>
        rw [hsd] at hlen
        exact absurd (List.length_eq_zero.mp hlen.symm) hkeys
      | cons a t => exact ⟨a, rfl⟩
    obtain ⟨hmem, hmax⟩ := head_sortedKeysDesc_max (ts.map Prod.fst) m hm
    obtain ⟨e, he⟩ := lookupEntry_of_mem ts m hmem
    refine ⟨⟨m, jsParseFloat e.«open», jsParseFloat e.high, jsParseFloat e.low,
      jsParseFloat e.close, jsParseInt e.volume⟩, ?_, hmem, hmax⟩
    simp [parseStockData, h, hm, he]
  · exact ⟨⟨"2024-01-03", some (mkRat 15000 100), some (mkRat 15200 100),
      some (mkRat 14950 100), some (mkRat 15125 100), some 1000000⟩, by decide, rfl⟩

/-- Witness for C3: the general part applied to the two-date series. -/
theorem parse_selects_latest_date_witness :
    ∃ q : Quote, parseStockData janResp = Except.ok (some q) ∧
      q.date ∈ ([("2024-01-02", sampleEntry), ("2024-01-03", sampleEntry)].map Prod.fst) ∧
      ∀ k ∈ ([("2024-01-02", sampleEntry), ("2024-01-03", sampleEntry)].map Prod.fst),
        keyLe k q.date :=
  parse_selects_latest_date.1 janResp
    [("2024-01-02", sampleEntry), ("2024-01-03", sampleEntry)] rfl (by decide)

/-- Claim C4: the sample entry parses to exactly
open 150, high 152, low 149.5, close 151.25, volume 1000000 — the prices as
exact rationals, the volume as an integer. -/
theorem parse_sample_entry_exact :
    parseStockData sampleResp = Except.ok (some
      { date := "2024-01-01", «open» := some 150, high := some 152,
        low := some (149.5 : ℚ), close := some (151.25 : ℚ),
        volume := some 1000000 }) := by
  have h1 : (149.5 : ℚ) = mkRat 14950 100 := by rw [Rat.mkRat_eq_div]; norm_num
  have h2 : (151.25 : ℚ) = mkRat 15125 100 := by rw [Rat.mkRat_eq_div]; norm_num
  rw [h1, h2]
  decide

/-- Claim C5: a response with no daily series (and no error fields) is a
silent no-op: `parseStockData` returns null, the cache is unchanged, the
status is left at the progress message (no error surfaced), and the loading
flag is cleared. -/
theorem no_series_silent_noop (resp : ApiResponse) (hT : resp.timeSeries = none)
    (hE : resp.hasErrorMessage = false) (hN : resp.hasNote = false)
    (sym : String) (st : AppState) :
    parseStockData resp = Except.ok none ∧
    (fetchStockPrice sym (FetchOutcome.success resp) st).stockPrices = st.stockPrices ∧
    (fetchStockPrice sym (FetchOutcome.success resp) st).apiStatus =
      sym ++ " のデータを取得中..." ∧
    (fetchStockPrice sym (FetchOutcome.success resp) st).isLoading = false := by
  have hparse : parseStockData resp = Except.ok none := by
    unfold parseStockData
    rw [hT]
  refine ⟨hparse, ?_, ?_, ?_⟩ <;>
    simp [fetchStockPrice, getDailyData, hE, hN, hparse]

/-- Witness for C5 at a concrete response, symbol and state. -/
theorem no_series_silent_noop_witness :
    parseStockData ⟨false, false, none⟩ = Except.ok none ∧
    (fetchStockPrice "AAPL" (FetchOutcome.success ⟨false, false, none⟩) emptyState).stockPrices =
      emptyState.stockPrices ∧
    (fetchStockPrice "AAPL" (FetchOutcome.success ⟨false, false, none⟩) emptyState).apiStatus =
      "AAPL" ++ " のデータを取得中..." ∧
    (fetchStockPrice "AAPL" (FetchOutcome.success ⟨false, false, none⟩) emptyState).isLoading =
      false :=
  no_series_silent_noop ⟨false, false, none⟩ rfl rfl rfl "AAPL" emptyState

/-- Claim C6: `updateAllPrices` walks its fixed symbol list strictly
sequentially — every symbol is issued exactly once, in list order, whatever
each request's outcome is, and the next issuance happens exactly at the
previous issuance plus that request's duration plus the fixed 1000 ms delay,
hence issuance times are at least 1000 ms apart. -/
theorem updateAllPrices_sequential_throttled (env : FetchEnv) (st : AppState) :
    (updateAllPrices env st).2.map Prod.fst = watchSymbols ∧
    List.Chain' (fun a b : String × ℕ => b.2 = a.2 + env.duration a.1 + 1000)
      (updateAllPrices env st).2 ∧
    List.Chain' (fun a b : String × ℕ => a.2 + 1000 ≤ b.2) (updateAllPrices env st).2 := by
  refine ⟨rfl, ?_, ?_⟩
  · simp [updateAllPrices, runSymbols, watchSymbols, List.chain'_cons]
  · simp [updateAllPrices, runSymbols, watchSymbols, List.chain'_cons]

/-- Witness for C6 in an environment where every request fails. -/
theorem updateAllPrices_sequential_throttled_witness :
    (updateAllPrices downEnv emptyState).2.map Prod.fst = watchSymbols ∧
    List.Chain' (fun a b : String × ℕ => b.2 = a.2 + downEnv.duration a.1 + 1000)
      (updateAllPrices downEnv emptyState).2 ∧
    List.Chain' (fun a b : String × ℕ => a.2 + 1000 ≤ b.2)
      (updateAllPrices downEnv emptyState).2 :=
  updateAllPrices_sequential_throttled downEnv emptyState

/-- Claim C7: the cache write is an insert-or-replace of the single entry at
the fetched symbol — that key ends up bound to the new Quote, every other
key's binding is unchanged — and a successful fetch performs exactly that
write on the component state. -/
theorem quoteCache_insert_or_replace (m : Cache) (k : String) (v : Quote) :
    Cache.lookup (Cache.set m k v) k = some v ∧
    (∀ k2 : String, k2 ≠ k → Cache.lookup (Cache.set m k v) k2 = Cache.lookup m k2) ∧
    (∀ (sym : String) (net : FetchOutcome) (st : AppState) (data : ApiResponse) (q : Quote),
        getDailyData net = Except.ok data → parseStockData data = Except.ok (some q) →
        (fetchStockPrice sym net st).stockPrices = Cache.set st.stockPrices sym q) := by
  refine ⟨cache_set_lookup_self m k v, fun k2 h => cache_set_lookup_other m k v k2 h, ?_⟩
  intro sym net st data q hg hp
  simp [fetchStockPrice, hg, hp]

/-- Witness for C7 at a concrete cache, key, quote and fetch. -/
theorem quoteCache_insert_or_replace_witness :
    Cache.lookup
        (Cache.set [("MSFT", ⟨"2024-01-01", none, none, none, none, none⟩)] "AAPL"
          ⟨"2024-01-02", none, none, none, none, none⟩) "AAPL" =
      some ⟨"2024-01-02", none, none, none, none, none⟩ ∧
    Cache.lookup
        (Cache.set [("MSFT", ⟨"2024-01-01", none, none, none, none, none⟩)] "AAPL"
          ⟨"2024-01-02", none, none, none, none, none⟩) "MSFT" =
      Cache.lookup [("MSFT", ⟨"2024-01-01", none, none, none, none, none⟩)] "MSFT" ∧
    (fetchStockPrice "AAPL" (FetchOutcome.success sampleResp) emptyState).stockPrices =
      Cache.set emptyState.stockPrices "AAPL"
        ⟨"2024-01-01", some (mkRat 15000 100), some (mkRat 15200 100),
          some (mkRat 14950 100), some (mkRat 15125 100), some 1000000⟩ :=
  ⟨(quoteCache_insert_or_replace [("MSFT", ⟨"2024-01-01", none, none, none, none, none⟩)]
      "AAPL" ⟨"2024-01-02", none, none, none, none, none⟩).1,
   (quoteCache_insert_or_replace [("MSFT", ⟨"2024-01-01", none, none, none, none, none⟩)]
      "AAPL" ⟨"2024-01-02", none, none, none, none, none⟩).2.1 "MSFT" (by decide),
   (quoteCache_insert_or_replace [] "AAPL" ⟨"2024-01-02", none, none, none, none, none⟩).2.2
      "AAPL" (FetchOutcome.success sampleResp) emptyState sampleResp
      ⟨"2024-01-01", some (mkRat 15000 100), some (mkRat 15200 100),
        some (mkRat 14950 100), some (mkRat 15125 100), some 1000000⟩
      (by decide) (by decide)⟩

/-- Claim C8: a network rejection or JSON-parse failure makes `getDailyData`
fail with the Transport error kind, distinct from NotFound and RateLimited,
and the raw message is surfaced in the status string. -/
theorem network_failure_transport (msg sym : String) (st : AppState) :
    getDailyData (FetchOutcome.failure msg) = Except.error (ApiError.transport msg) ∧
    (∀ m : String, ApiError.transport m ≠ ApiError.notFound) ∧
    (∀ m : String, ApiError.transport m ≠ ApiError.rateLimited) ∧
    (fetchStockPrice sym (FetchOutcome.failure msg) st).apiStatus = "エラー: " ++ msg := by
  refine ⟨rfl, fun m h => ApiError.noConfusion h, fun m h => ApiError.noConfusion h, ?_⟩
  simp [fetchStockPrice, getDailyData, ApiError.message]

/-- Witness for C8 at a concrete failure message, symbol and state. -/
theorem network_failure_transport_witness :
    getDailyData (FetchOutcome.failure "Failed to fetch") =
      Except.error (ApiError.transport "Failed to fetch") ∧
    (∀ m : String, ApiError.transport m ≠ ApiError.notFound) ∧
    (∀ m : String, ApiError.transport m ≠ ApiError.rateLimited) ∧
    (fetchStockPrice "AAPL" (FetchOutcome.failure "Failed to fetch") emptyState).apiStatus =
      "エラー: " ++ "Failed to fetch" :=
  network_failure_transport "Failed to fetch" "AAPL" emptyState

/-- Claim C9: a present-but-empty daily series is not the silent no-op and
not a Quote: `parseStockData` throws (undefined-entry field access), and the
fetch surfaces an error status. -/
theorem empty_series_throws (resp : ApiResponse) (hT : resp.timeSeries = some [])
    (hE : resp.hasErrorMessage = false) (hN : resp.hasNote = false)
    (sym : String) (st : AppState) :
    parseStockData resp = Except.error JsError.typeError ∧
    parseStockData resp ≠ Except.ok none ∧
    (∀ q : Quote, parseStockData resp ≠ Except.ok (some q)) ∧
    (fetchStockPrice sym (FetchOutcome.success resp) st).apiStatus =
      "エラー: " ++ JsError.message JsError.typeError := by
  have hparse : parseStockData resp = Except.error JsError.typeError := by
    unfold parseStockData
    rw [hT]
    decide
  refine ⟨hparse, by simp [hparse], fun q => by simp [hparse], ?_⟩
  simp [fetchStockPrice, getDailyData, hE, hN, hparse]

/-- Witness for C9 at a concrete response, symbol and state. -/
theorem empty_series_throws_witness :
    parseStockData ⟨false, false, some []⟩ = Except.error JsError.typeError ∧
    parseStockData ⟨false, false, some []⟩ ≠ Except.ok none ∧
    (∀ q : Quote, parseStockData ⟨false, false, some []⟩ ≠ Except.ok (some q)) ∧
    (fetchStockPrice "AAPL" (FetchOutcome.success ⟨false, false, some []⟩) emptyState).apiStatus =
      "エラー: " ++ JsError.message JsError.typeError :=
  empty_series_throws ⟨false, false, some []⟩ rfl rfl rfl "AAPL" emptyState

/-- Claim C10: `fetchStockPrice` is a total state transformer (every thrown
error is caught and turned into a status string; the embedding returns a
plain `AppState`, never an exception), the loading flag is false on every
termination path, and the cache is unchanged unless a Quote was successfully
parsed, in which case the update is exactly the single-entry write. -/
theorem fetchStockPrice_total_frame (sym : String) (net : FetchOutcome) (st : AppState) :
    (fetchStockPrice sym net st).isLoading = false ∧
    ((fetchStockPrice sym net st).stockPrices = st.stockPrices ∨
      ∃ (data : ApiResponse) (q : Quote),
        getDailyData net = Except.ok data ∧ parseStockData data = Except.ok (some q) ∧
        (fetchStockPrice sym net st).stockPrices = Cache.set st.stockPrices sym q) := by
  constructor
  · rfl
  · cases hg : getDailyData net with
    | error e =>
      left
      simp [fetchStockPrice, hg]
    | ok data =>
      cases hp : parseStockData data with
      | error j =>
        left
        simp [fetchStockPrice, hg, hp]
      | ok oq =>
        cases oq with
        | none =>
          left
          simp [fetchStockPrice, hg, hp]
        | some q =>
          right
          exact ⟨data, q, rfl, hp, by simp [fetchStockPrice, hg, hp]⟩

/-- Witness for C10 at a concrete symbol, outcome and state. -/
theorem fetchStockPrice_total_frame_witness :
    (fetchStockPrice "AAPL" (FetchOutcome.failure "down") emptyState).isLoading = false ∧
    ((fetchStockPrice "AAPL" (FetchOutcome.failure "down") emptyState).stockPrices =
        emptyState.stockPrices ∨
      ∃ (data : ApiResponse) (q : Quote),
        getDailyData (FetchOutcome.failure "down") = Except.ok data ∧
        parseStockData data = Except.ok (some q) ∧
        (fetchStockPrice "AAPL" (FetchOutcome.failure "down") emptyState).stockPrices =
          Cache.set emptyState.stockPrices "AAPL" q) :=
  fetchStockPrice_total_frame "AAPL" (FetchOutcome.failure "down") emptyState
